import Mathlib

/-!
Shallow embedding of `src/sound_sim_v3/sim_core.py`: the 2D acoustic FDTD
simulation core (grid state, input operations, and the per-step advance).

Python floats are modelled as an inductive type `F`: an exact rational for
every finite float, plus the special values `+inf`, `-inf` and `nan`, with
IEEE-754-style propagation rules for the arithmetic the code performs.
Finite-float rounding and overflow are abstracted to exact rational
arithmetic, which is the standard real-valued reading of an FDTD scheme;
the special values are kept because the numerical-safety step of
`advance_canvas` treats them specially.
-/

namespace SoundSim

/-- A Python/NumPy floating-point value: a finite value (modelled exactly as
a rational), positive infinity, negative infinity, or NaN. -/
inductive F where
  | fin (q : ℚ)
  | pinf
  | ninf
  | nan
deriving DecidableEq, Repr

/-- IEEE negation: flips the sign of finite values and infinities, keeps NaN. -/
def F.neg : F → F
  | F.fin q => F.fin (-q)
  | F.pinf => F.ninf
  | F.ninf => F.pinf
  | F.nan => F.nan

/-- IEEE addition: NaN propagates, opposite infinities give NaN, an infinity
absorbs finite values, finite values add exactly. -/
def F.add : F → F → F
  | F.nan, _ => F.nan
  | _, F.nan => F.nan
  | F.pinf, F.ninf => F.nan
  | F.ninf, F.pinf => F.nan
  | F.pinf, _ => F.pinf
  | _, F.pinf => F.pinf
  | F.ninf, _ => F.ninf
  | _, F.ninf => F.ninf
  | F.fin a, F.fin b => F.fin (a + b)

/-- IEEE subtraction, `x - y = x + (-y)`. -/
def F.sub (x y : F) : F := x.add y.neg

/-- Multiplication of a float by a finite scalar `c` (the code only ever
multiplies the field by finite configuration constants such as `2.0`,
`8.0`, `coeff` and `damping`): NaN propagates, `0 * inf = NaN`, a nonzero
scalar scales an infinity by its sign, finite values multiply exactly.
Scalar-left and scalar-right multiplication agree under these rules, so this
single form models both `2.0 * P` and `P_next *= damping`. -/
def F.mulQ (c : ℚ) : F → F
  | F.nan => F.nan
  | F.fin q => F.fin (c * q)
  | F.pinf => if c = 0 then F.nan else if 0 < c then F.pinf else F.ninf
  | F.ninf => if c = 0 then F.nan else if 0 < c then F.ninf else F.pinf

/-- Division of a float by a finite scalar `c` (the code divides the stencil
sum by `3.0 * dx * dx`): NaN propagates; for `c = 0` (IEEE `+0.0`) a nonzero
finite numerator gives a signed infinity and `0/0` gives NaN, while an
infinite numerator keeps its sign; for `c ≠ 0` finite values divide exactly
and infinities follow the sign of `c`. -/
def F.divQ : F → ℚ → F
  | F.nan, _ => F.nan
  | F.fin q, c =>
      if c = 0 then (if q = 0 then F.nan else if 0 < q then F.pinf else F.ninf)
      else F.fin (q / c)
  | F.pinf, c => if c < 0 then F.ninf else F.pinf
  | F.ninf, c => if c < 0 then F.pinf else F.ninf

/-- A dense `width × height` array of floats, indexed `[x, y]` like the
NumPy arrays of shape `(width, height)` in the code. -/
abbrev Grid (w h : ℕ) := Fin w → Fin h → F

/-- The simulation state held by `Canvas` in `sim_core.py`: dimensions, the
current and previous pressure fields, and the ordered list of persistent
source coordinates (a Python list of `(x, y)` int tuples). -/
structure Canvas where
  width : ℕ
  height : ℕ
  pressure : Grid width height
  prev_pressure : Grid width height
  persistent_sources : List (ℤ × ℤ)

/-- The body of `Canvas.__init__`: zero-filled pressure fields and an empty
source list. The constructor performs no validation of the dimensions. -/
def Canvas.init (width height : ℕ) : Canvas :=
  { width := width
    height := height
    pressure := fun _ _ => F.fin 0
    prev_pressure := fun _ _ => F.fin 0
    persistent_sources := [] }

/-- The Python constructor call `Canvas(width, height)`, wrapped in `Except`
to record its error behaviour: `__init__` has no validation and no failure
path, so it always returns `ok`. -/
def createCode (width height : ℕ) : Except String Canvas :=
  Except.ok (Canvas.init width height)

/-- Modelled from the spec: `Create(width, height)` as §4.1 describes it,
failing with `InvalidDimension` if width or height < 3 (this validation is
absent from `Canvas.__init__` in the source; the definition exists only to
compare the spec's words against `createCode`). -/
def createSpec (width height : ℕ) : Except String Canvas :=
  if width < 3 ∨ height < 3 then Except.error "InvalidDimension"
  else Except.ok (Canvas.init width height)

/-- `add_pulse`: add `amplitude` to `pressure[x, y]` when `(x, y)` is
in-bounds, otherwise do nothing. -/
def add_pulse (c : Canvas) (x y : ℤ) (amplitude : ℚ := 5) : Canvas :=
  if 0 ≤ x ∧ x < (c.width : ℤ) ∧ 0 ≤ y ∧ y < (c.height : ℤ) then
    { c with pressure := fun i j =>
        if i.val = x.toNat ∧ j.val = y.toNat then
          (c.pressure i j).add (F.fin amplitude)
        else c.pressure i j }
  else c

/-- `add_persistent_source`: append `(x, y)` to the source list if it is not
already present. The code performs no bounds check here. -/
def add_persistent_source (c : Canvas) (x y : ℤ) : Canvas :=
  if (x, y) ∈ c.persistent_sources then c
  else { c with persistent_sources := c.persistent_sources ++ [(x, y)] }

/-- Squared Euclidean distance between integer points, used to compare the
code's `np.hypot(x - sx, y - sy)` distances without irrational arithmetic:
for nonnegative reals, `hypot ≤ r` iff `0 ≤ r ∧ hypot² ≤ r²`, and squaring
is monotone on nonnegative values, so both the `argmin` index and the radius
test are unchanged by working with squares. -/
def sqDist (x y sx sy : ℤ) : ℤ := (x - sx) ^ 2 + (y - sy) ^ 2

/-- Tail of `np.argmin`: scan the remaining list, keeping the index of the
first strictly smallest value seen so far. -/
def argminAux (bestIdx : ℕ) (bestVal : ℤ) (cur : ℕ) : List ℤ → ℕ
  | [] => bestIdx
  | v :: rest =>
      if v < bestVal then argminAux cur v (cur + 1) rest
      else argminAux bestIdx bestVal (cur + 1) rest

/-- `np.argmin` on a list of distances: index of the first occurrence of the
minimum, `0` on the empty list (the code only calls it on nonempty lists). -/
def argminIdx : List ℤ → ℕ
  | [] => 0
  | v :: rest => argminAux 0 v 1 rest

/-- The list `dists` of `remove_persistent_source`: the distance from
`(x, y)` to every source, as squared Euclidean distances. -/
def distList (x y : ℤ) (l : List (ℤ × ℤ)) : List ℤ :=
  l.map (fun p => sqDist x y p.1 p.2)

/-- `remove_persistent_source`: no-op on an empty source list; otherwise
find the source nearest to `(x, y)` (first one on ties, as `np.argmin`) and
pop it if its distance is within `radius`. The code's Euclidean test
`dists[imin] <= radius` is expressed on squared distances as
`0 ≤ radius ∧ sq ≤ radius²`, which is equivalent since distances are
nonnegative. -/
def remove_persistent_source (c : Canvas) (x y : ℤ) (radius : ℤ := 2) : Canvas :=
  if c.persistent_sources = [] then c
  else
    let dists := distList x y c.persistent_sources
    let imin := argminIdx dists
    if 0 ≤ radius ∧ dists.getD imin 0 ≤ radius ^ 2 then
      { c with persistent_sources := c.persistent_sources.eraseIdx imin }
    else c

/-- `handle_input`: dispatch a user tap to `add_pulse`,
`add_persistent_source` or `remove_persistent_source` by mode string, and
raise `ValueError` (modelled as `Except.error`) on any other mode. -/
def handle_input (c : Canvas) (x y : ℤ) (mode : String) : Except String Canvas :=
  if mode = "pulse" then Except.ok (add_pulse c x y)
  else if mode = "consistent" then Except.ok (add_persistent_source c x y)
  else if mode = "remove" then Except.ok (remove_persistent_source c x y)
  else Except.error ("Unknown mode: " ++ mode)

/-- The configuration (keyword arguments) of `advance_canvas`, with the
source defaults. `sin2pi` abstracts the transcendental `np.sin`: it stands
for the map `x ↦ sin(2π·x)`, so the code's
`np.sin(2.0 * np.pi * source_freq * t_cont)` is `sin2pi (source_freq * t_cont)`. -/
structure Config where
  sound_speed : ℚ := 1 / 2
  damping : ℚ := 998 / 1000
  time : ℚ := 0
  dt : ℚ := 1 / 5
  dx : ℚ := 1
  dy : ℚ := 1
  source_amp : ℚ := 1
  source_freq : ℚ := 1 / 20
  clip : Option ℚ := some 100
  boundary : String := "reflective"
  sin2pi : ℚ → ℚ

/-- Index `i - 1` modulo `w`: where `np.roll(P, 1, axis)` reads from. -/
def rollM {w : ℕ} (i : Fin w) : Fin w :=
  ⟨(i.val + (w - 1)) % w, Nat.mod_lt _ i.pos⟩

/-- Index `i + 1` modulo `w`: where `np.roll(P, -1, axis)` reads from. -/
def rollP {w : ℕ} (i : Fin w) : Fin w :=
  ⟨(i.val + 1) % w, Nat.mod_lt _ i.pos⟩

/-- The 8-neighbour (Moore, 9-point) Laplacian of `advance_canvas`: the sum
of the four orthogonal and four diagonal toroidal neighbours minus
`8.0 * P`, all divided by `3.0 * dx * dx` (the code normalizes by `dx`
twice; its `dy` parameter is unused). Association follows the Python
expression left to right. -/
def laplacian {w h : ℕ} (P : Grid w h) (dx : ℚ) : Grid w h := fun i j =>
  (((((((((P (rollM i) j).add (P (rollP i) j)).add
      (P i (rollM j))).add (P i (rollP j))).add
      (P (rollM i) (rollM j))).add (P (rollM i) (rollP j))).add
      (P (rollP i) (rollM j))).add (P (rollP i) (rollP j))).sub
      (F.mulQ 8 (P i j))).divQ (3 * dx * dx)

/-- The persistent-source injection loop of `advance_canvas`: for each
`(sx, sy)` in the source list, in order, add `sval` to the cell when the
coordinate is in-bounds, and silently skip it otherwise. -/
def injectSources (wd ht : ℕ) (sources : List (ℤ × ℤ)) (sval : ℚ)
    (P : Grid wd ht) : Grid wd ht :=
  sources.foldl
    (fun g p =>
      if 0 ≤ p.1 ∧ p.1 < (wd : ℤ) ∧ 0 ≤ p.2 ∧ p.2 < (ht : ℤ) then
        fun i j =>
          if i.val = p.1.toNat ∧ j.val = p.2.toNat then (g i j).add (F.fin sval)
          else g i j
      else g)
    P

/-- NumPy row assignment `P[dst, :] = P[src % w, :]` (the `%` only guards
the `Fin` index; the code's `src` values `1` and `w - 2` are already
reduced whenever `w ≥ 2`, i.e. whenever the code itself does not raise). -/
def setRowFrom {w h : ℕ} (g : Grid w h) (dst src : ℕ) : Grid w h := fun i j =>
  if i.val = dst then g ⟨src % w, Nat.mod_lt _ i.pos⟩ j else g i j

/-- NumPy column assignment `P[:, dst] = P[:, src % h]`. -/
def setColFrom {w h : ℕ} (g : Grid w h) (dst src : ℕ) : Grid w h := fun i j =>
  if j.val = dst then g i ⟨src % h, Nat.mod_lt _ j.pos⟩ else g i j

/-- NumPy row assignment `P[dst, :] = 0.0`. -/
def zeroRow {w h : ℕ} (g : Grid w h) (dst : ℕ) : Grid w h := fun i j =>
  if i.val = dst then F.fin 0 else g i j

/-- NumPy column assignment `P[:, dst] = 0.0`. -/
def zeroCol {w h : ℕ} (g : Grid w h) (dst : ℕ) : Grid w h := fun i j =>
  if j.val = dst then F.fin 0 else g i j

/-- The boundary-condition block of `advance_canvas`: `"fixed"` zeroes the
four edge rows/columns; `"reflective"` mirrors row 1 into row 0, row
`w - 2` into row `w - 1`, then the same for columns (the sequential NumPy
assignments, so the column copies read the already-mirrored rows); any
other string, `"periodic"` included, leaves the grid untouched. -/
def applyBoundary {w h : ℕ} (boundary : String) (g : Grid w h) : Grid w h :=
  if boundary = "fixed" then
    zeroCol (zeroCol (zeroRow (zeroRow g 0) (w - 1)) 0) (h - 1)
  else if boundary = "reflective" then
    setColFrom (setColFrom (setRowFrom (setRowFrom g 0 1) (w - 1) (w - 2)) 0 1)
      (h - 1) (h - 2)
  else g

/-- The value `np.nan_to_num` substitutes for a float: NaN becomes `0`,
`+inf` becomes `posrep`, `-inf` becomes `negrep`, finite values pass
through. -/
def nanToNumQ (posrep negrep : ℚ) : F → ℚ
  | F.nan => 0
  | F.pinf => posrep
  | F.ninf => negrep
  | F.fin q => q

/-- Scalar `np.clip(q, lo, hi) = min(max(q, lo), hi)` (when `lo > hi` every
output equals `hi`, as in NumPy). -/
def clampQ (lo hi q : ℚ) : ℚ := min (max q lo) hi

/-- The largest finite `float32`, `(2 - 2⁻²³)·2¹²⁷`: what `np.nan_to_num`
substitutes for `+inf` by default when no replacement is given. -/
def f32max : ℚ := 2 ^ 128 - 2 ^ 104

/-- The numerical-safety block of `advance_canvas`: with clipping enabled,
`np.nan_to_num(·, nan=0, posinf=clip, neginf=-clip)` followed by
`np.clip(·, -clip, clip)`; with clipping disabled, `np.nan_to_num(·, nan=0)`
with its default finite substitutes for the infinities. -/
def safety {w h : ℕ} (clip : Option ℚ) (g : Grid w h) : Grid w h :=
  match clip with
  | some c => fun i j => F.fin (clampQ (-c) c (nanToNumQ c (-c) (g i j)))
  | none => fun i j => F.fin (nanToNumQ f32max (-f32max) (g i j))

/-- One call of `advance_canvas`: Moore Laplacian, leapfrog update,
persistent-source injection (skipped when there are no sources or
`source_amp = 0`), damping (skipped when `damping = 1`), boundary
condition, numerical safety, and buffer rotation
(`prev_pressure ← pressure`, `pressure ← P_next`). -/
def advance_canvas (c : Canvas) (cfg : Config) : Canvas :=
  let P := c.pressure
  let lap := laplacian P cfg.dx
  let coeff := (cfg.sound_speed * cfg.dt) ^ 2
  let pNext0 : Grid c.width c.height := fun i j =>
    ((F.mulQ 2 (P i j)).sub (c.prev_pressure i j)).add (F.mulQ coeff (lap i j))
  let tCont := cfg.time * cfg.dt
  let pNext1 :=
    if c.persistent_sources ≠ [] ∧ cfg.source_amp ≠ 0 then
      injectSources c.width c.height c.persistent_sources
        (cfg.source_amp * cfg.sin2pi (cfg.source_freq * tCont)) pNext0
    else pNext0
  let pNext2 :=
    if cfg.damping ≠ 1 then fun i j => F.mulQ cfg.damping (pNext1 i j)
    else pNext1
  let pNext3 := applyBoundary cfg.boundary pNext2
  let pNext4 := safety cfg.clip pNext3
  { c with pressure := pNext4, prev_pressure := P }

/-- Modelled from the spec (claim C1): the update rule exactly as the claim
words it, on rational fields — `2·P − P_prev + (soundSpeed·dt)² · Lap(P)`
with the 8-neighbour Moore stencil normalized by `1/(3·dx·dy)`. This is a
comparison definition only; the source normalizes by `1/(3·dx·dx)`. -/
def specNextPressure {w h : ℕ} (P Pprev : Fin w → Fin h → ℚ)
    (soundSpeed dt dx dy : ℚ) : Fin w → Fin h → ℚ := fun i j =>
  2 * P i j - Pprev i j + (soundSpeed * dt) ^ 2 *
    ((P (rollM i) j + P (rollP i) j + P i (rollM j) + P i (rollP j) +
      P (rollM i) (rollM j) + P (rollM i) (rollP j) +
      P (rollP i) (rollM j) + P (rollP i) (rollP j) -
      8 * P i j) / (3 * dx * dy))

/-- The spec's configuration domain for `clipMagnitude`: when present it is
a magnitude, i.e. nonnegative (§4.2 "bounds the field"). -/
def ClipOK : Option ℚ → Prop
  | none => True
  | some c => 0 ≤ c

instance : DecidablePred ClipOK := fun o => by
  cases o with
  | none => exact isTrue trivial
  | some c => exact inferInstanceAs (Decidable (0 ≤ c))

/-! Concrete inputs used by counterexamples and witnesses. -/

/-- A 3×3 rational field with a single unit value at `(0, 0)`. -/
def unitP : Fin 3 → Fin 3 → ℚ := fun i j => if i.val = 0 ∧ j.val = 0 then 1 else 0

/-- A 3×3 canvas holding `unitP` as pressure, zero history, no sources. -/
def unitCanvas : Canvas :=
  { width := 3, height := 3
    pressure := fun i j => F.fin (unitP i j)
    prev_pressure := fun _ _ => F.fin 0
    persistent_sources := [] }

/-- Periodic, undamped, unclipped configuration with `dx = 1` and `dy = 2`. -/
def cfgAniso : Config :=
  { sound_speed := 1, damping := 1, time := 0, dt := 1, dx := 1, dy := 2
    source_amp := 1, source_freq := 0, clip := none, boundary := "periodic"
    sin2pi := fun _ => 0 }

/-- A 3×3 canvas whose pressure holds a NaN, an infinity and a large finite
value, with zero history and no sources. -/
def nanCanvas : Canvas :=
  { width := 3, height := 3
    pressure := fun i j =>
      if i.val = 0 ∧ j.val = 0 then F.nan
      else if i.val = 1 ∧ j.val = 1 then F.pinf
      else F.fin 1000000
    prev_pressure := fun _ _ => F.fin 0
    persistent_sources := [] }

/-- Default-like configuration clipping at `5`. -/
def cfgClip5 : Config := { clip := some 5, sin2pi := fun _ => 0 }

/-- Default-like configuration with fixed boundary. -/
def cfgFixed : Config := { boundary := "fixed", sin2pi := fun _ => 0 }

/-- Default-like configuration with reflective boundary. -/
def cfgReflect : Config := { boundary := "reflective", sin2pi := fun _ => 0 }

/-- Default-like configuration with an unrecognized boundary string. -/
def cfgBogus : Config := { boundary := "diagonal", sin2pi := fun _ => 0 }

/-- Default-like configuration with periodic boundary. -/
def cfgPeriodic : Config := { boundary := "periodic", sin2pi := fun _ => 0 }

/-- A 20×20 canvas with persistent sources at `(0,0)` and `(10,10)`. -/
def twoSourceCanvas : Canvas :=
  { Canvas.init 20 20 with persistent_sources := [(0, 0), (10, 10)] }

/-! Helper lemmas: how the float operations act on finite values, and a
closed-form evaluation of `advance_canvas` in the all-finite, no-source,
undamped, unclipped, non-overwriting-boundary case. -/

@[simp] theorem F.add_fin (a b : ℚ) : (F.fin a).add (F.fin b) = F.fin (a + b) := rfl

@[simp] theorem F.neg_fin (a : ℚ) : (F.fin a).neg = F.fin (-a) := rfl

@[simp] theorem F.sub_fin (a b : ℚ) : (F.fin a).sub (F.fin b) = F.fin (a - b) := by
  simp [F.sub, sub_eq_add_neg]

@[simp] theorem F.mulQ_fin (c a : ℚ) : F.mulQ c (F.fin a) = F.fin (c * a) := rfl

theorem F.divQ_fin (a c : ℚ) (hc : c ≠ 0) : (F.fin a).divQ c = F.fin (a / c) := by
  simp [F.divQ, hc]

@[simp] theorem nanToNumQ_fin (p n a : ℚ) : nanToNumQ p n (F.fin a) = a := rfl

theorem advance_prev_eq (c : Canvas) (cfg : Config) :
    (advance_canvas c cfg).prev_pressure = c.pressure := rfl

theorem advance_width_eq (c : Canvas) (cfg : Config) :
    (advance_canvas c cfg).width = c.width := rfl

theorem advance_height_eq (c : Canvas) (cfg : Config) :
    (advance_canvas c cfg).height = c.height := rfl

theorem advance_sources_eq (c : Canvas) (cfg : Config) :
    (advance_canvas c cfg).persistent_sources = c.persistent_sources := rfl

/-- Pointwise evaluation of `advance_canvas` when every cell is finite, the
source list is empty, `damping = 1`, clipping is disabled, `dx ≠ 0`, and
the boundary string is neither `"fixed"` nor `"reflective"` (so the
boundary block does not overwrite anything). -/
theorem advance_pressure_eval (w ht : ℕ) (P PV : Grid w ht)
    (src : List (ℤ × ℤ)) (cfg : Config)
    (p pv : Fin w → Fin ht → ℚ)
    (hP : ∀ i j, P i j = F.fin (p i j))
    (hPv : ∀ i j, PV i j = F.fin (pv i j))
    (hsrc : src = [])
    (hd : cfg.damping = 1)
    (hclip : cfg.clip = none)
    (hb1 : cfg.boundary ≠ "fixed")
    (hb2 : cfg.boundary ≠ "reflective")
    (hdx : cfg.dx ≠ 0) :
    ∀ (i : Fin w) (j : Fin ht),
      (advance_canvas (Canvas.mk w ht P PV src) cfg).pressure i j =
      F.fin (2 * p i j - pv i j + (cfg.sound_speed * cfg.dt) ^ 2 *
        ((p (rollM i) j + p (rollP i) j + p i (rollM j) + p i (rollP j) +
          p (rollM i) (rollM j) + p (rollM i) (rollP j) +
          p (rollP i) (rollM j) + p (rollP i) (rollP j) -
          8 * p i j) / (3 * cfg.dx * cfg.dx))) := by
  intro i j
  have h3 : (3 : ℚ) * cfg.dx * cfg.dx ≠ 0 := by
    simp [mul_ne_zero, hdx]
  simp only [advance_canvas, laplacian, applyBoundary, safety, hclip, hsrc, hd,
    ne_eq, not_true_eq_false, false_and, if_false, ite_false, if_neg hb1, if_neg hb2,
    hP, hPv, F.add_fin, F.sub_fin, F.mulQ_fin, F.divQ_fin _ _ h3, nanToNumQ_fin]

theorem clampQ_abs_le (C x : ℚ) (hC : 0 ≤ C) : |clampQ (-C) C x| ≤ C := by
  rw [abs_le]
  exact ⟨le_min (le_max_right _ _) (by linarith), min_le_right _ _⟩

theorem safety_fin_zero {W H : ℕ} (clip : Option ℚ) (g : Grid W H)
    (i : Fin W) (j : Fin H) (hok : ClipOK clip) (hg : g i j = F.fin 0) :
    safety clip g i j = F.fin 0 := by
  cases clip with
  | none => simp [safety, hg, nanToNumQ]
  | some C =>
      simp only [ClipOK] at hok
      simp only [safety, hg, nanToNumQ, clampQ]
      rw [max_eq_left (by linarith), min_eq_left hok]

theorem fixed_edge_zero {W H : ℕ} (g : Grid W H) (i : Fin W) (j : Fin H)
    (hedge : i.val = 0 ∨ i.val = W - 1 ∨ j.val = 0 ∨ j.val = H - 1) :
    applyBoundary "fixed" g i j = F.fin 0 := by
  rcases hedge with h | h | h | h <;> simp [applyBoundary, zeroRow, zeroCol, h]

/-- C1 (counterexample): with `dx = 1` and `dy = 2` (periodic boundary,
damping 1, no sources, clipping disabled, finite field), one `advance_canvas`
call does not produce the claim's update value — the claim normalizes the
Moore stencil by `1/(3·dx·dy)` while the code divides by `3.0 * dx * dx`,
so at cell `(0, 1)` the code yields `1/3` and the claim's formula `1/6`. -/
theorem C1_counterexample :
    (show Grid 3 3 from (advance_canvas unitCanvas cfgAniso).pressure) 0 1 ≠
      F.fin (specNextPressure unitP (fun _ _ => 0) 1 1 1 2 0 1) := by
  have h := advance_pressure_eval 3 3 (fun i j => F.fin (unitP i j)) (fun _ _ => F.fin 0)
    [] cfgAniso unitP (fun _ _ => 0) (fun _ _ => rfl) (fun _ _ => rfl) rfl rfl rfl
    (by decide) (by decide) (by norm_num [cfgAniso]) 0 1
  intro heq
  have hcontra := h.symm.trans heq
  simp only [F.fin.injEq, specNextPressure, unitP, rollM, rollP, cfgAniso] at hcontra
  norm_num at hcontra

/-- C1 (amended): for every finite grid and every configuration with
periodic boundary, damping 1, empty source set, clipping disabled and
nonzero grid spacing `dx`, one `advance_canvas` call sets `pressure` to
`2·pressure − prevPressure + (soundSpeed·dt)² · Lap(pressure)` where `Lap`
is the toroidal 8-neighbour Moore stencil normalized by `1/(3·dx·dx)` (the
`dy` spacing is ignored by the code), and sets `prev_pressure` to the value
`pressure` had immediately before the call. -/
theorem C1_theorem (w ht : ℕ) (P PV : Grid w ht) (src : List (ℤ × ℤ)) (cfg : Config)
    (p pv : Fin w → Fin ht → ℚ)
    (hP : ∀ i j, P i j = F.fin (p i j))
    (hPv : ∀ i j, PV i j = F.fin (pv i j))
    (hsrc : src = [])
    (hd : cfg.damping = 1)
    (hclip : cfg.clip = none)
    (hb : cfg.boundary = "periodic")
    (hdx : cfg.dx ≠ 0) :
    (∀ (i : Fin w) (j : Fin ht),
      (advance_canvas (Canvas.mk w ht P PV src) cfg).pressure i j =
        F.fin (2 * p i j - pv i j + (cfg.sound_speed * cfg.dt) ^ 2 *
          ((p (rollM i) j + p (rollP i) j + p i (rollM j) + p i (rollP j) +
            p (rollM i) (rollM j) + p (rollM i) (rollP j) +
            p (rollP i) (rollM j) + p (rollP i) (rollP j) -
            8 * p i j) / (3 * cfg.dx * cfg.dx)))) ∧
    (advance_canvas (Canvas.mk w ht P PV src) cfg).prev_pressure = P :=
  ⟨advance_pressure_eval w ht P PV src cfg p pv hP hPv hsrc hd hclip
      (by rw [hb]; decide) (by rw [hb]; decide) hdx, rfl⟩

/-- C1 (witness): the amended update rule instantiated on the concrete 3×3
unit-impulse canvas with the `dx = 1, dy = 2` periodic configuration,
evaluated at cell `(0, 1)`. -/
theorem C1_witness :
    cfgAniso.damping = 1 ∧ cfgAniso.clip = none ∧ cfgAniso.boundary = "periodic" ∧
    cfgAniso.dx ≠ 0 ∧
    ((show Grid 3 3 from
        (advance_canvas (Canvas.mk 3 3 (fun i j => F.fin (unitP i j))
          (fun _ _ => F.fin 0) []) cfgAniso).pressure) 0 1 =
      F.fin (2 * unitP 0 1 - 0 + (cfgAniso.sound_speed * cfgAniso.dt) ^ 2 *
        ((unitP (rollM 0) 1 + unitP (rollP 0) 1 + unitP 0 (rollM 1) + unitP 0 (rollP 1) +
          unitP (rollM 0) (rollM 1) + unitP (rollM 0) (rollP 1) +
          unitP (rollP 0) (rollM 1) + unitP (rollP 0) (rollP 1) -
          8 * unitP 0 1) / (3 * cfgAniso.dx * cfgAniso.dx)))) ∧
    (advance_canvas (Canvas.mk 3 3 (fun i j => F.fin (unitP i j))
        (fun _ _ => F.fin 0) []) cfgAniso).prev_pressure =
      (fun i j => F.fin (unitP i j)) := by
  have h := C1_theorem 3 3 (fun i j => F.fin (unitP i j)) (fun _ _ => F.fin 0) [] cfgAniso
    unitP (fun _ _ => 0) (fun _ _ => rfl) (fun _ _ => rfl) rfl rfl rfl rfl
    (by norm_num [cfgAniso])
  exact ⟨rfl, rfl, rfl, by norm_num [cfgAniso], h.1 0 1, h.2⟩

/-- C2: for every grid state (NaN, infinite or arbitrarily large cells
included) and every configuration with `clip = some C` for a magnitude
`C ≥ 0`, after `advance_canvas` every pressure cell is a finite value `v`
with `|v| ≤ C`; moreover the numerical-safety stage maps a NaN cell to `0`,
a `+inf` cell to `+C` and a `-inf` cell to `-C`. -/
theorem C2_theorem (c : Canvas) (cfg : Config) (C : ℚ)
    (hclip : cfg.clip = some C) (hC : 0 ≤ C) :
    (∀ (i : Fin c.width) (j : Fin c.height),
      ∃ v : ℚ, (advance_canvas c cfg).pressure i j = F.fin v ∧ |v| ≤ C) ∧
    (∀ (W H : ℕ) (g : Grid W H) (i : Fin W) (j : Fin H),
      (g i j = F.nan → safety cfg.clip g i j = F.fin 0) ∧
      (g i j = F.pinf → safety cfg.clip g i j = F.fin C) ∧
      (g i j = F.ninf → safety cfg.clip g i j = F.fin (-C))) := by
  constructor
  · intro i j
    simp only [advance_canvas, safety, hclip]
    exact ⟨_, rfl, clampQ_abs_le C _ hC⟩
  · intro W H g i j
    refine ⟨fun hg => ?_, fun hg => ?_, fun hg => ?_⟩
    · simp only [safety, hclip, hg, nanToNumQ, clampQ]
      rw [max_eq_left (by linarith), min_eq_left hC]
    · simp only [safety, hclip, hg, nanToNumQ, clampQ]
      rw [max_eq_left (by linarith), min_self]
    · simp only [safety, hclip, hg, nanToNumQ, clampQ]
      rw [max_self, min_eq_left (by linarith)]

/-- C2 (witness): the clamp bound instantiated on a 3×3 canvas containing a
NaN, a `+inf` and a huge finite value, with `clip = 5`, at cell `(0, 0)`. -/
theorem C2_witness :
    cfgClip5.clip = some 5 ∧ (0 : ℚ) ≤ 5 ∧
    (∃ v : ℚ, (show Grid 3 3 from (advance_canvas nanCanvas cfgClip5).pressure) 0 0 =
      F.fin v ∧ |v| ≤ 5) :=
  ⟨rfl, by norm_num,
    (C2_theorem nanCanvas cfgClip5 5 rfl (by norm_num)).1 (0 : Fin 3) (0 : Fin 3)⟩

/-- C3: for every grid state and every configuration with fixed boundary
(and a nonnegative clip magnitude when clipping is enabled), after
`advance_canvas` every cell in row 0, the last row, column 0 or the last
column is exactly `0`. -/
theorem C3_theorem (c : Canvas) (cfg : Config)
    (hb : cfg.boundary = "fixed") (hclip : ClipOK cfg.clip) :
    ∀ (i : Fin c.width) (j : Fin c.height),
      i.val = 0 ∨ i.val = c.width - 1 ∨ j.val = 0 ∨ j.val = c.height - 1 →
      (advance_canvas c cfg).pressure i j = F.fin 0 := by
  intro i j hedge
  simp only [advance_canvas]
  exact safety_fin_zero cfg.clip _ i j hclip (by rw [hb]; exact fixed_edge_zero _ i j hedge)

/-- C3 (witness): the fixed-boundary zeroing instantiated on the NaN-laden
3×3 canvas with the fixed-boundary default configuration, at edge cell
`(0, 2)`. -/
theorem C3_witness :
    cfgFixed.boundary = "fixed" ∧ ClipOK cfgFixed.clip ∧
    ((0 : Fin 3).val = 0 ∨ (0 : Fin 3).val = 3 - 1 ∨ (2 : Fin 3).val = 0 ∨
      (2 : Fin 3).val = 3 - 1) ∧
    (show Grid 3 3 from (advance_canvas nanCanvas cfgFixed).pressure) 0 2 = F.fin 0 :=
  ⟨rfl, by norm_num [ClipOK, cfgFixed], Or.inl rfl,
    C3_theorem nanCanvas cfgFixed rfl (by norm_num [ClipOK, cfgFixed])
      (0 : Fin 3) (2 : Fin 3) (Or.inl rfl)⟩

/-- C4 (counterexample): `Canvas(2, 2)` does not fail — `Canvas.__init__`
performs no dimension validation, so the code's constructor returns a grid
where the claim (and `createSpec`, the spec's words) demands an
`InvalidDimension` error. -/
theorem C4_counterexample :
    createCode 2 2 = Except.ok (Canvas.init 2 2) ∧ createCode 2 2 ≠ createSpec 2 2 :=
  ⟨rfl, by simp [createCode, createSpec]⟩

/-- C4 (amended): `Create(width, height)` performs no dimension validation:
for every width and height, including values below 3, it returns a grid
with `pressure` and `prevPressure` all zero and an empty source set. -/
theorem C4_theorem (w h : ℕ) :
    createCode w h = Except.ok (Canvas.init w h) ∧
    (∀ (i : Fin w) (j : Fin h), (Canvas.init w h).pressure i j = F.fin 0) ∧
    (∀ (i : Fin w) (j : Fin h), (Canvas.init w h).prev_pressure i j = F.fin 0) ∧
    (Canvas.init w h).persistent_sources = [] :=
  ⟨rfl, fun _ _ => rfl, fun _ _ => rfl, rfl⟩

theorem applyBoundary_other {W H : ℕ} (b : String) (g : Grid W H)
    (hb1 : b ≠ "fixed") (hb2 : b ≠ "reflective") : applyBoundary b g = g := by
  simp [applyBoundary, hb1, hb2]

/-- C5 (counterexample): `handle_input` does fail loudly on an unknown mode,
but `advance_canvas` with the unrecognized boundary string `"diagonal"`
returns normally and produces exactly the periodic result — a silent
fallback to the default instead of the claimed loud failure. -/
theorem C5_counterexample :
    handle_input (Canvas.init 3 3) 0 0 "banana" = Except.error "Unknown mode: banana" ∧
    advance_canvas unitCanvas cfgBogus = advance_canvas unitCanvas cfgPeriodic :=
  ⟨rfl, rfl⟩

/-- C5 (amended): the input-dispatch operation fails loudly (`ValueError`)
on every unrecognized mode string, but `advance_canvas` silently treats
every boundary string other than `"fixed"` and `"reflective"` as periodic
(no boundary overwrite, no error). -/
theorem C5_theorem (mode : String)
    (hm1 : mode ≠ "pulse") (hm2 : mode ≠ "consistent") (hm3 : mode ≠ "remove")
    (b : String) (hb1 : b ≠ "fixed") (hb2 : b ≠ "reflective") :
    (∀ (c : Canvas) (x y : ℤ),
      handle_input c x y mode = Except.error ("Unknown mode: " ++ mode)) ∧
    (∀ (c : Canvas) (cfg : Config),
      advance_canvas c { cfg with boundary := b } =
        advance_canvas c { cfg with boundary := "periodic" }) := by
  constructor
  · intro c x y
    simp [handle_input, hm1, hm2, hm3]
  · intro c cfg
    simp only [advance_canvas]
    rw [applyBoundary_other b _ hb1 hb2, applyBoundary_other "periodic" _ (by decide) (by decide)]

/-- C5 (witness): the amended statement at mode `"banana"` and boundary
string `"diagonal"`, on concrete canvases. -/
theorem C5_witness :
    ("banana" : String) ≠ "pulse" ∧ ("banana" : String) ≠ "consistent" ∧
    ("banana" : String) ≠ "remove" ∧ ("diagonal" : String) ≠ "fixed" ∧
    ("diagonal" : String) ≠ "reflective" ∧
    handle_input (Canvas.init 3 3) 0 0 "banana" = Except.error ("Unknown mode: " ++ "banana") ∧
    advance_canvas unitCanvas { cfgPeriodic with boundary := "diagonal" } =
      advance_canvas unitCanvas { cfgPeriodic with boundary := "periodic" } := by
  have h := C5_theorem "banana" (by decide) (by decide) (by decide) "diagonal" (by decide) (by decide)
  exact ⟨by decide, by decide, by decide, by decide, by decide,
    h.1 (Canvas.init 3 3) 0 0, h.2 unitCanvas cfgPeriodic⟩

/-- C6 (counterexample): `add_persistent_source` performs no bounds check —
on a 5×5 canvas, adding a source at the out-of-range coordinate `(99, 99)`
changes the source set to `[(99, 99)]` rather than leaving it unchanged. -/
theorem C6_counterexample :
    (add_persistent_source (Canvas.init 5 5) 99 99).persistent_sources = [(99, 99)] ∧
    ¬((99 : ℤ) < (Canvas.init 5 5).width) :=
  ⟨rfl, by norm_num [Canvas.init]⟩

/-- C6 (amended): `AddSource(x, y)` inserts `(x, y)` into the source set iff
it is not already present, with no bounds check; calling it twice yields
exactly one entry at `(x, y)`. -/
theorem C6_theorem (c : Canvas) (x y : ℤ) (hnot : (x, y) ∉ c.persistent_sources) :
    add_persistent_source (add_persistent_source c x y) x y = add_persistent_source c x y ∧
    (add_persistent_source c x y).persistent_sources = c.persistent_sources ++ [(x, y)] ∧
    List.count (x, y) (add_persistent_source c x y).persistent_sources = 1 := by
  refine ⟨?_, ?_, ?_⟩
  · simp [add_persistent_source, hnot]
  · simp [add_persistent_source, hnot]
  · simp [add_persistent_source, hnot, List.count_append, List.count_eq_zero_of_not_mem hnot]

/-- C6 (witness): idempotent insertion at `(1, 2)` on a fresh 4×4 canvas. -/
theorem C6_witness :
    ((1 : ℤ), (2 : ℤ)) ∉ (Canvas.init 4 4).persistent_sources ∧
    (add_persistent_source (add_persistent_source (Canvas.init 4 4) 1 2) 1 2 =
      add_persistent_source (Canvas.init 4 4) 1 2 ∧
    (add_persistent_source (Canvas.init 4 4) 1 2).persistent_sources =
      (Canvas.init 4 4).persistent_sources ++ [(1, 2)] ∧
    List.count ((1 : ℤ), (2 : ℤ))
      (add_persistent_source (Canvas.init 4 4) 1 2).persistent_sources = 1) :=
  ⟨by simp [Canvas.init], C6_theorem (Canvas.init 4 4) 1 2 (by simp [Canvas.init])⟩

/-- Invariant of the `np.argmin` scan `argminAux`: if the running best
index points into the original list at the running best value and the
remaining suffix is a drop of the original, the final index is in range and
indexes a value no larger than the best value and every remaining value. -/
theorem argminAux_inv (orig : List ℤ) (l : List ℤ) :
    ∀ (bi cur : ℕ) (bv : ℤ),
      bi < orig.length → orig.getD bi 0 = bv → orig.drop cur = l →
      argminAux bi bv cur l < orig.length ∧
      orig.getD (argminAux bi bv cur l) 0 ≤ bv ∧
      ∀ d ∈ l, orig.getD (argminAux bi bv cur l) 0 ≤ d := by
  induction l with
  | nil =>
      intro bi cur bv hbi hbv _
      refine ⟨hbi, le_of_eq ?_, fun d hd => absurd hd (List.not_mem_nil d)⟩
      simpa [argminAux] using hbv
  | cons v rest ih =>
      intro bi cur bv hbi hbv hdrop
      have hcur : cur < orig.length := by
        by_contra hc
        push_neg at hc
        rw [List.drop_eq_nil_of_le hc] at hdrop
        exact List.noConfusion hdrop
      have hv : orig.getD cur 0 = v := by
        have h0 : orig[cur]? = some v := by
          have hge := List.getElem?_drop orig cur 0
          rw [hdrop] at hge
          simpa using hge.symm
        simp [List.getD_eq_getElem?_getD, h0]
      have hrest : orig.drop (cur + 1) = rest := by
        have hdd := List.drop_drop 1 cur orig
        rw [hdrop] at hdd
        simpa [Nat.add_comm] using hdd.symm
      by_cases hlt : v < bv
      · have hres := ih cur (cur + 1) v hcur hv hrest
        refine ⟨?_, ?_, ?_⟩
        · simpa [argminAux, hlt] using hres.1
        · simp only [argminAux, if_pos hlt]
          exact le_trans hres.2.1 (le_of_lt hlt)
        · intro d hd
          simp only [argminAux, if_pos hlt]
          rcases List.mem_cons.mp hd with h | h
          · rw [h]; exact hres.2.1
          · exact hres.2.2 d h
      · have hres := ih bi (cur + 1) bv hbi hbv hrest
        refine ⟨?_, ?_, ?_⟩
        · simpa [argminAux, hlt] using hres.1
        · simp only [argminAux, if_neg hlt]
          exact hres.2.1
        · intro d hd
          simp only [argminAux, if_neg hlt]
          rcases List.mem_cons.mp hd with h | h
          · rw [h]
            exact le_trans hres.2.1 (not_lt.mp hlt)
          · exact hres.2.2 d h


/-- `np.argmin` on a nonempty list returns an in-range index of a minimal
element. -/
theorem argminIdx_spec (v : ℤ) (rest : List ℤ) :
    argminIdx (v :: rest) < (v :: rest).length ∧
    ∀ d ∈ v :: rest, (v :: rest).getD (argminIdx (v :: rest)) 0 ≤ d := by
  have h := argminAux_inv (v :: rest) rest 0 1 v (by simp) (by rfl) (by rfl)
  refine ⟨?_, ?_⟩
  · simpa [argminIdx] using h.1
  · intro d hd
    rcases List.mem_cons.mp hd with hh | hh
    · rw [hh]
      simpa [argminIdx] using h.2.1
    · simpa [argminIdx] using h.2.2 d hh

/-- C7: `remove_persistent_source` is a no-op on an empty source set;
otherwise it removes exactly the (first) nearest entry iff that entry's
distance to `(x, y)` is at most `radius` (squared-distance form of the
Euclidean test), leaving the sources untouched otherwise; concretely, with
sources `(0,0)` and `(10,10)`, removing near `(1,1)` with radius 3 deletes
`(0,0)` and keeps `(10,10)`, and removing near `(5,5)` with radius 1
changes nothing. -/
theorem C7_theorem :
    (∀ (c : Canvas) (x y r : ℤ), c.persistent_sources = [] →
      remove_persistent_source c x y r = c) ∧
    (∀ (c : Canvas) (x y r : ℤ), c.persistent_sources ≠ [] →
      (argminIdx (distList x y c.persistent_sources) < c.persistent_sources.length ∧
       (∀ d ∈ distList x y c.persistent_sources,
         (distList x y c.persistent_sources).getD
           (argminIdx (distList x y c.persistent_sources)) 0 ≤ d)) ∧
      ((0 ≤ r ∧ (distList x y c.persistent_sources).getD
          (argminIdx (distList x y c.persistent_sources)) 0 ≤ r ^ 2) →
        (remove_persistent_source c x y r).persistent_sources =
          c.persistent_sources.eraseIdx (argminIdx (distList x y c.persistent_sources))) ∧
      (¬(0 ≤ r ∧ (distList x y c.persistent_sources).getD
          (argminIdx (distList x y c.persistent_sources)) 0 ≤ r ^ 2) →
        remove_persistent_source c x y r = c)) ∧
    (remove_persistent_source twoSourceCanvas 1 1 3).persistent_sources = [(10, 10)] ∧
    remove_persistent_source twoSourceCanvas 5 5 1 = twoSourceCanvas := by
  refine ⟨?_, ?_, ?_, ?_⟩
  · intro c x y r h
    simp [remove_persistent_source, h]
  · intro c x y r hne
    obtain ⟨s, ss, hsrc⟩ := List.exists_cons_of_ne_nil hne
    have hspec := argminIdx_spec (sqDist x y s.1 s.2) (distList x y ss)
    refine ⟨?_, ?_, ?_⟩
    · rw [hsrc]
      constructor
      · simpa [distList] using hspec.1
      · simpa [distList] using hspec.2
    · intro hcond
      simp only [remove_persistent_source]
      rw [if_neg (by rw [hsrc]; simp), if_pos hcond]
    · intro hcond
      simp only [remove_persistent_source]
      rw [if_neg (by rw [hsrc]; simp), if_neg hcond]
  · rfl
  · rfl

/-- C7 (witness): the empty-source no-op branch applied to a fresh canvas. -/
theorem C7_witness :
    (Canvas.init 3 3).persistent_sources = [] ∧
    remove_persistent_source (Canvas.init 3 3) 0 0 2 = Canvas.init 3 3 :=
  ⟨rfl, C7_theorem.1 (Canvas.init 3 3) 0 0 2 rfl⟩

/-- The safety stage maps a cell that is zero or NaN to zero, for any
nonnegative (or absent) clip magnitude. -/
theorem safety_zn {W H : ℕ} (clip : Option ℚ) (g : Grid W H)
    (i : Fin W) (j : Fin H) (hok : ClipOK clip)
    (hg : g i j = F.fin 0 ∨ g i j = F.nan) :
    safety clip g i j = F.fin 0 := by
  rcases hg with hg | hg
  · exact safety_fin_zero clip g i j hok hg
  · cases clip with
    | none => simp [safety, hg, nanToNumQ]
    | some C =>
        simp only [ClipOK] at hok
        simp only [safety, hg, nanToNumQ, clampQ]
        rw [max_eq_left (by linarith), min_eq_left hok]

/-- Every boundary mode only copies cells of its input grid or writes
zeroes, so any cell predicate holding of `0` and of every input cell holds
of every output cell. -/
theorem applyBoundary_pres {W H : ℕ} (b : String) (g : Grid W H)
    (Q : F → Prop) (hQ0 : Q (F.fin 0)) (hg : ∀ i j, Q (g i j)) :
    ∀ i j, Q (applyBoundary b g i j) := by
  intro i j
  unfold applyBoundary zeroRow zeroCol setRowFrom setColFrom
  by_cases h1 : b = "fixed"
  · simp only [if_pos h1]
    repeat' split
    all_goals first | exact hQ0 | exact hg _ _
  · by_cases h2 : b = "reflective"
    · simp only [if_neg h1, if_pos h2]
      repeat' split
      all_goals exact hg _ _
    · simp only [if_neg h1, if_neg h2]
      exact hg i j

/-- The Moore Laplacian of the all-zero grid is zero (or NaN when the
normalizing divisor `3·dx·dx` is zero, i.e. `0/0`). -/
theorem lap_zero {W H : ℕ} (dx : ℚ) (i : Fin W) (j : Fin H) :
    laplacian (fun _ _ => F.fin 0) dx i j = F.fin 0 ∨
    laplacian (fun _ _ => F.fin 0) dx i j = F.nan := by
  by_cases hc : 3 * dx * dx = 0
  · right
    simp [laplacian, F.divQ, hc]
  · left
    simp [laplacian, F.divQ_fin _ _ hc]

/-- Two canvases with the same dimensions, pointwise-equal fields and equal
source lists are equal. -/
theorem Canvas_mk_eq (w h : ℕ) (P1 P2 V1 V2 : Grid w h) (s1 s2 : List (ℤ × ℤ))
    (hP : ∀ i j, P1 i j = P2 i j) (hV : ∀ i j, V1 i j = V2 i j) (hs : s1 = s2) :
    Canvas.mk w h P1 V1 s1 = Canvas.mk w h P2 V2 s2 := by
  have h1 : P1 = P2 := funext fun i => funext fun j => hP i j
  have h2 : V1 = V2 := funext fun i => funext fun j => hV i j
  rw [h1, h2, hs]

/-- One `advance_canvas` step on the freshly created all-zero, sourceless
canvas returns it unchanged, for every configuration whose clip magnitude
is valid. -/
theorem advance_zero (w h : ℕ) (cfg : Config) (hok : ClipOK cfg.clip) :
    advance_canvas (Canvas.init w h) cfg = Canvas.init w h := by
  have hzn : ∀ (i : Fin w) (j : Fin h),
      ((F.mulQ 2 (F.fin 0)).sub (F.fin 0)).add
        (F.mulQ ((cfg.sound_speed * cfg.dt) ^ 2)
          (laplacian (fun _ _ => F.fin 0) cfg.dx i j)) = F.fin 0 ∨
      ((F.mulQ 2 (F.fin 0)).sub (F.fin 0)).add
        (F.mulQ ((cfg.sound_speed * cfg.dt) ^ 2)
          (laplacian (fun _ _ => F.fin 0) cfg.dx i j)) = F.nan := by
    intro i j
    rcases lap_zero (W := w) (H := h) cfg.dx i j with hl | hl
    · left
      simp [hl]
    · right
      simp [hl, F.mulQ, F.add, F.sub, F.neg]
  refine Canvas_mk_eq w h _ _ _ _ _ _ ?_ (fun _ _ => rfl) rfl
  intro i j
  simp only [Canvas.init, ne_eq, not_true_eq_false, false_and, if_false]
  have hInner : ∀ (a : Fin w) (b : Fin h),
      (if cfg.damping ≠ 1 then
          (fun i2 j2 => F.mulQ cfg.damping
            (((F.mulQ 2 (F.fin 0)).sub (F.fin 0)).add
              (F.mulQ ((cfg.sound_speed * cfg.dt) ^ 2)
                (laplacian (fun _ _ => F.fin 0) cfg.dx i2 j2))))
        else
          (fun i2 j2 => ((F.mulQ 2 (F.fin 0)).sub (F.fin 0)).add
            (F.mulQ ((cfg.sound_speed * cfg.dt) ^ 2)
              (laplacian (fun _ _ => F.fin 0) cfg.dx i2 j2)))) a b = F.fin 0 ∨
      (if cfg.damping ≠ 1 then
          (fun i2 j2 => F.mulQ cfg.damping
            (((F.mulQ 2 (F.fin 0)).sub (F.fin 0)).add
              (F.mulQ ((cfg.sound_speed * cfg.dt) ^ 2)
                (laplacian (fun _ _ => F.fin 0) cfg.dx i2 j2))))
        else
          (fun i2 j2 => ((F.mulQ 2 (F.fin 0)).sub (F.fin 0)).add
            (F.mulQ ((cfg.sound_speed * cfg.dt) ^ 2)
              (laplacian (fun _ _ => F.fin 0) cfg.dx i2 j2)))) a b = F.nan := by
    intro a b
    by_cases hd : cfg.damping = 1
    · simp only [hd, ne_eq, not_true_eq_false, if_false]
      exact hzn a b
    · simp only [ne_eq, hd, not_false_eq_true, if_true]
      rcases hzn a b with hz | hz
      · rw [hz]
        left
        simp
      · rw [hz]
        right
        rfl
  exact safety_zn _ _ i j hok
    (applyBoundary_pres cfg.boundary _ (fun v => v = F.fin 0 ∨ v = F.nan) (Or.inl rfl) hInner i j)

/-- C8: starting from an all-zero grid with no sources, any number of
`advance_canvas` calls under any sequence of configurations (with valid
clip magnitudes) leaves the grid all zero. -/
theorem C8_theorem (w h : ℕ) (cfgs : List Config)
    (hok : ∀ cfg ∈ cfgs, ClipOK cfg.clip) :
    cfgs.foldl advance_canvas (Canvas.init w h) = Canvas.init w h := by
  induction cfgs with
  | nil => rfl
  | cons cfg rest ih =>
      rw [List.foldl_cons, advance_zero w h cfg (hok cfg (List.mem_cons_self cfg rest))]
      exact ih (fun c hc => hok c (List.mem_cons_of_mem cfg hc))

/-- C8 (witness): two advance steps (periodic then fixed default configs)
on a fresh 3×3 canvas leave it unchanged. -/
theorem C8_witness :
    (∀ cfg ∈ [cfgPeriodic, cfgFixed], ClipOK cfg.clip) ∧
    List.foldl advance_canvas (Canvas.init 3 3) [cfgPeriodic, cfgFixed] = Canvas.init 3 3 := by
  have hok : ∀ cfg ∈ [cfgPeriodic, cfgFixed], ClipOK cfg.clip := by
    intro cfg hc
    rcases List.mem_cons.mp hc with h | h
    · rw [h]
      norm_num [ClipOK, cfgPeriodic]
    · rcases List.mem_cons.mp h with h2 | h2
      · rw [h2]
        norm_num [ClipOK, cfgFixed]
      · exact absurd h2 (List.not_mem_nil cfg)
  exact ⟨hok, C8_theorem 3 3 [cfgPeriodic, cfgFixed] hok⟩

/-- The sequential reflective boundary assignments (rows mirrored first,
then columns, each reading the already-updated grid) leave row 0 equal to
row 1, the last row equal to the second-to-last row, and likewise for
columns, on every grid with both dimensions at least 2. -/
theorem reflective_mirror {W H : ℕ} (g : Grid W H) (hw : 2 ≤ W) (hh : 2 ≤ H) :
    (∀ j, applyBoundary "reflective" g ⟨0, by omega⟩ j =
      applyBoundary "reflective" g ⟨1, by omega⟩ j) ∧
    (∀ j, applyBoundary "reflective" g ⟨W - 1, by omega⟩ j =
      applyBoundary "reflective" g ⟨W - 2, by omega⟩ j) ∧
    (∀ i, applyBoundary "reflective" g i ⟨0, by omega⟩ =
      applyBoundary "reflective" g i ⟨1, by omega⟩) ∧
    (∀ i, applyBoundary "reflective" g i ⟨H - 1, by omega⟩ =
      applyBoundary "reflective" g i ⟨H - 2, by omega⟩) := by
  have hb : applyBoundary "reflective" g =
      setColFrom (setColFrom (setRowFrom (setRowFrom g 0 1) (W - 1) (W - 2)) 0 1)
        (H - 1) (H - 2) := by
    simp [applyBoundary]
  rw [hb]
  have w1 : 1 % W = 1 := Nat.mod_eq_of_lt (by omega)
  have w2 : (W - 2) % W = W - 2 := Nat.mod_eq_of_lt (by omega)
  have hcol1 : 1 % H = 1 := Nat.mod_eq_of_lt (by omega)
  have hcol2 : (H - 2) % H = H - 2 := Nat.mod_eq_of_lt (by omega)
  have hrow0 : ∀ j, setRowFrom (setRowFrom g 0 1) (W - 1) (W - 2) ⟨0, by omega⟩ j =
      setRowFrom (setRowFrom g 0 1) (W - 1) (W - 2) ⟨1, by omega⟩ j := by
    intro j
    by_cases hW : W = 2
    · subst hW
      simp [setRowFrom]
    · simp [setRowFrom, w1, w2,
        (show ¬((0 : ℕ) = W - 1) by omega), (show ¬((1 : ℕ) = W - 1) by omega),
        (show ¬((1 : ℕ) = 0) by omega)]
  have hrowL : ∀ j, setRowFrom (setRowFrom g 0 1) (W - 1) (W - 2) ⟨W - 1, by omega⟩ j =
      setRowFrom (setRowFrom g 0 1) (W - 1) (W - 2) ⟨W - 2, by omega⟩ j := by
    intro j
    simp [setRowFrom, w2, (show ¬(W - 2 = W - 1) by omega)]
  have hpres : ∀ (G : Grid W H) (a b : Fin W), (∀ j, G a j = G b j) →
      ∀ (d s : ℕ) (j : Fin H), setColFrom G d s a j = setColFrom G d s b j := by
    intro G a b hab d s j
    by_cases hj : j.val = d
    · simp [setColFrom, hj, hab]
    · simp [setColFrom, hj, hab]
  refine ⟨?_, ?_, ?_, ?_⟩
  · intro j
    exact hpres _ _ _ (fun j2 => hpres _ _ _ hrow0 0 1 j2) (H - 1) (H - 2) j
  · intro j
    exact hpres _ _ _ (fun j2 => hpres _ _ _ hrowL 0 1 j2) (H - 1) (H - 2) j
  · intro i
    by_cases hH : H = 2
    · subst hH
      simp [setColFrom]
    · simp [setColFrom, hcol1, hcol2,
        (show ¬((0 : ℕ) = H - 1) by omega), (show ¬((1 : ℕ) = H - 1) by omega),
        (show ¬((1 : ℕ) = 0) by omega)]
  · intro i
    simp [setColFrom, hcol2, (show ¬(H - 2 = H - 1) by omega)]

/-- The safety stage acts pointwise, so it maps equal cells to equal
cells. -/
theorem safety_congr {W H : ℕ} (clip : Option ℚ) (g : Grid W H)
    (i i2 : Fin W) (j j2 : Fin H) (h : g i j = g i2 j2) :
    safety clip g i j = safety clip g i2 j2 := by
  cases clip <;> simp [safety, h]

/-- C9: for every grid state (any cell values) and every configuration with
reflective boundary, after `advance_canvas` row 0 of pressure equals row 1,
the last row equals the second-to-last row, column 0 equals column 1, and
the last column equals the second-to-last column. -/
theorem C9_theorem (c : Canvas) (cfg : Config) (hb : cfg.boundary = "reflective")
    (hw : 2 ≤ c.width) (hh : 2 ≤ c.height) :
    (∀ j, (advance_canvas c cfg).pressure ⟨0, by rw [advance_width_eq]; omega⟩ j =
      (advance_canvas c cfg).pressure ⟨1, by rw [advance_width_eq]; omega⟩ j) ∧
    (∀ j, (advance_canvas c cfg).pressure ⟨c.width - 1, by rw [advance_width_eq]; omega⟩ j =
      (advance_canvas c cfg).pressure ⟨c.width - 2, by rw [advance_width_eq]; omega⟩ j) ∧
    (∀ i, (advance_canvas c cfg).pressure i ⟨0, by rw [advance_height_eq]; omega⟩ =
      (advance_canvas c cfg).pressure i ⟨1, by rw [advance_height_eq]; omega⟩) ∧
    (∀ i, (advance_canvas c cfg).pressure i ⟨c.height - 1, by rw [advance_height_eq]; omega⟩ =
      (advance_canvas c cfg).pressure i ⟨c.height - 2, by rw [advance_height_eq]; omega⟩) := by
  simp only [advance_canvas, hb]
  refine ⟨?_, ?_, ?_, ?_⟩
  · intro j
    exact safety_congr _ _ _ _ _ _ ((reflective_mirror _ hw hh).1 j)
  · intro j
    exact safety_congr _ _ _ _ _ _ ((reflective_mirror _ hw hh).2.1 j)
  · intro i
    exact safety_congr _ _ _ _ _ _ ((reflective_mirror _ hw hh).2.2.1 i)
  · intro i
    exact safety_congr _ _ _ _ _ _ ((reflective_mirror _ hw hh).2.2.2 i)

/-- C9 (witness): reflective mirroring of rows 0 and 1 at column 0 on the
NaN-laden 3×3 canvas under the reflective default configuration. -/
theorem C9_witness :
    cfgReflect.boundary = "reflective" ∧ 2 ≤ nanCanvas.width ∧ 2 ≤ nanCanvas.height ∧
    (show Grid 3 3 from (advance_canvas nanCanvas cfgReflect).pressure) 0 0 =
      (show Grid 3 3 from (advance_canvas nanCanvas cfgReflect).pressure) 1 0 :=
  ⟨rfl, by norm_num [nanCanvas], by norm_num [nanCanvas],
    (C9_theorem nanCanvas cfgReflect rfl (by norm_num [nanCanvas])
      (by norm_num [nanCanvas])).1 (0 : Fin 3)⟩

/-- C10: `advance_canvas` never changes the width, the height or the source
list (it only rewrites `pressure` and `prev_pressure`), and the injection
loop silently skips any source entry lying outside
`[0, width) × [0, height)` instead of injecting it or failing. -/
theorem C10_theorem (c : Canvas) (cfg : Config) :
    (advance_canvas c cfg).width = c.width ∧
    (advance_canvas c cfg).height = c.height ∧
    (advance_canvas c cfg).persistent_sources = c.persistent_sources ∧
    (∀ (W H : ℕ) (P : Grid W H) (sval : ℚ) (s : ℤ × ℤ) (rest : List (ℤ × ℤ)),
      ¬(0 ≤ s.1 ∧ s.1 < (W : ℤ) ∧ 0 ≤ s.2 ∧ s.2 < (H : ℤ)) →
      injectSources W H (s :: rest) sval P = injectSources W H rest sval P) := by
  refine ⟨rfl, rfl, rfl, ?_⟩
  intro W H P sval s rest hoob
  simp only [injectSources, List.foldl_cons, if_neg hoob]

/-- C10 (witness): the frame equalities on the unit-impulse canvas under the
periodic default configuration, and the skip of the out-of-range source
`(5, 5)` on a 3×3 grid. -/
theorem C10_witness :
    (advance_canvas unitCanvas cfgPeriodic).width = unitCanvas.width ∧
    (advance_canvas unitCanvas cfgPeriodic).height = unitCanvas.height ∧
    (advance_canvas unitCanvas cfgPeriodic).persistent_sources =
      unitCanvas.persistent_sources ∧
    (¬((0 : ℤ) ≤ 5 ∧ (5 : ℤ) < (3 : ℕ) ∧ (0 : ℤ) ≤ 5 ∧ (5 : ℤ) < (3 : ℕ)) ∧
      injectSources 3 3 [((5 : ℤ), (5 : ℤ))] 1 (fun _ _ => F.fin 0) =
        injectSources 3 3 [] 1 (fun _ _ => F.fin 0)) := by
  have hoob : ¬((0 : ℤ) ≤ 5 ∧ (5 : ℤ) < (3 : ℕ) ∧ (0 : ℤ) ≤ 5 ∧ (5 : ℤ) < (3 : ℕ)) := by
    norm_num
  have h := C10_theorem unitCanvas cfgPeriodic
  exact ⟨h.1, h.2.1, h.2.2.1, hoob, h.2.2.2 3 3 (fun _ _ => F.fin 0) 1 (5, 5) [] hoob⟩

end SoundSim
